import Mathlib

/-!
Verification of the wallet init module (src/wallet/init.cpp) of the blocknet
repository: configuration parameter interaction, wallet verification, the
first-run legacy wallet migration in `WalletInit::Construct`, wallet loading,
and registry teardown.

The C++ code is shallowly embedded: the global argument store `gArgs` becomes
an explicit association list threaded through the functions, filesystem and
wallet-capability operations (`fs::exists`, `CWallet::Verify`,
`CWallet::CreateWalletFromFile`, ...) become oracle function parameters, and
each init routine returns a structure recording its boolean result, the error
it raised (if any), the calls it made, and the final store.
-/

/-! ## The argument store (model of `ArgsManager` / `gArgs`)

An argument store maps an option name to the list of values supplied for it.
An option is "set" when it has an entry.  Later occurrences of a single-valued
option override earlier ones, so single-value reads take the last value.
-/

abbrev Args := List (String × List String)

/-- Model of C `atoi` restricted to an optional sign followed by leading
decimal digits (leading whitespace is not modeled; the option values the
init code reads are plain numerals). -/
def atoiDigits : List Char → Nat → Nat
  | [], acc => acc
  | c :: cs, acc => if c.isDigit then atoiDigits cs (acc * 10 + (c.toNat - 48)) else acc

def atoi (s : String) : Int :=
  match s.data with
  | '-' :: cs => - (atoiDigits cs 0 : Int)
  | '+' :: cs => (atoiDigits cs 0 : Int)
  | cs => (atoiDigits cs 0 : Int)

/-- Model of `InterpretBool`: an empty value means true, otherwise `atoi(value) != 0`. -/
def interpretBool (s : String) : Bool :=
  if s.isEmpty then true else atoi s != 0

/-- Model of `ArgsManager::IsArgSet`. -/
def isArgSet (a : Args) (name : String) : Bool :=
  (a.lookup name).isSome

/-- Model of `ArgsManager::GetArgs`: all values supplied for a (multi-valued) option. -/
def getArgsList (a : Args) (name : String) : List String :=
  (a.lookup name).getD []

/-- Model of `ArgsManager::GetArg` (string form): the value of the option, or the
default when unset. -/
def getArgDef (a : Args) (name dflt : String) : String :=
  match a.lookup name with
  | some vs => vs.getLast?.getD dflt
  | none => dflt

/-- Model of `ArgsManager::GetArg` (integer form): `atoi` of the value, or the default. -/
def getIntArg (a : Args) (name : String) (dflt : Int) : Int :=
  match a.lookup name with
  | some vs => (vs.getLast?.map atoi).getD dflt
  | none => dflt

/-- Model of `ArgsManager::GetBoolArg`. -/
def getBoolArg (a : Args) (name : String) (dflt : Bool) : Bool :=
  match a.lookup name with
  | some vs => (vs.getLast?.map interpretBool).getD dflt
  | none => dflt

/-- Model of `ArgsManager::ForceSetArg`: unconditionally (re)binds the option. -/
def forceSetArg (a : Args) (name v : String) : Args :=
  (name, [v]) :: a

/-- Model of `ArgsManager::SoftSetArg`: binds the option only when it is unset;
returns whether it did. -/
def softSetArg (a : Args) (name v : String) : Bool × Args :=
  if isArgSet a name then (false, a) else (true, (name, [v]) :: a)

/-- Model of `ArgsManager::SoftSetBoolArg`. -/
def softSetBoolArg (a : Args) (name : String) (b : Bool) : Bool × Args :=
  softSetArg a name (if b then "1" else "0")

def DEFAULT_DISABLE_WALLET : Bool := false
def DEFAULT_BLOCKSONLY : Bool := false

/-! ## `WalletInit::ParameterInteraction` -/

/-- The fatal errors `ParameterInteraction` can raise via `InitError`. -/
inductive PIErr where
  /-- strprintf of "%s is only allowed with a single wallet file" at an
  option name (`-salvagewallet`, `-zapwallettxes` or `-upgradewallet`). -/
  | singleWalletOnly (opt : String)
  /-- message "-sysperms is not allowed in combination with enabled wallet functionality" -/
  | syspermsWithWallet
  /-- message "Rescans are not possible in pruned mode. ..." -/
  | pruneWithRescan
deriving DecidableEq, Repr

structure PIResult where
  ok : Bool
  error : Option PIErr
  /-- whether the high min-relay-fee `InitWarning` was emitted -/
  feeWarning : Bool
  args : Args
deriving DecidableEq, Repr

/-- The `if (cond) { gArgs.SoftSetBoolArg(name, b); }` pattern of
`ParameterInteraction` (the boolean result of the soft-set only gates
logging). -/
def softStep (c : Bool) (a : Args) (name : String) (b : Bool) : Args :=
  if c then (softSetBoolArg a name b).2 else a

/-- Model of `WalletInit::ParameterInteraction`, straight-line from the source.
`minRelayFeeHigh` models the external condition
`::minRelayTxFee.GetFeePerK() > HIGH_TX_FEE_PER_KB`. -/
def parameterInteraction (a0 : Args) (minRelayFeeHigh : Bool) : PIResult :=
  if getBoolArg a0 "-disablewallet" DEFAULT_DISABLE_WALLET then
    -- each -wallet value is logged as ignored; no store mutation
    { ok := true, error := none, feeWarning := false, args := a0 }
  else
    let is_multiwallet : Bool := decide ((getArgsList a0 "-wallet").length > 1)
    let a1 := softStep (getBoolArg a0 "-blocksonly" DEFAULT_BLOCKSONLY)
                a0 "-walletbroadcast" false
    if getBoolArg a1 "-salvagewallet" false && is_multiwallet then
      { ok := false, error := some (.singleWalletOnly "-salvagewallet"),
        feeWarning := false, args := a1 }
    else
    -- rewrite just private keys: rescan to find transactions
    let a2 := softStep (getBoolArg a1 "-salvagewallet" false) a1 "-rescan" true
    let zapwallettxes := getBoolArg a2 "-zapwallettxes" false
    -- -zapwallettxes implies dropping the mempool on startup
    let a3 := softStep zapwallettxes a2 "-persistmempool" false
    if zapwallettxes && is_multiwallet then
      { ok := false, error := some (.singleWalletOnly "-zapwallettxes"),
        feeWarning := false, args := a3 }
    else
    -- -zapwallettxes implies a rescan
    let a4 := softStep zapwallettxes a3 "-rescan" true
    if is_multiwallet && getBoolArg a4 "-upgradewallet" false then
      { ok := false, error := some (.singleWalletOnly "-upgradewallet"),
        feeWarning := false, args := a4 }
    else if getBoolArg a4 "-sysperms" false then
      { ok := false, error := some .syspermsWithWallet, feeWarning := false, args := a4 }
    else if getIntArg a4 "-prune" 0 != 0 && getBoolArg a4 "-rescan" false then
      { ok := false, error := some .pruneWithRescan, feeWarning := false, args := a4 }
    else
      { ok := true, error := none, feeWarning := minRelayFeeHigh, args := a4 }

example :
    (parameterInteraction [("-wallet", ["w1", "w2"]), ("-salvagewallet", ["1"])] false).error
      = some (.singleWalletOnly "-salvagewallet") := by decide

example :
    (parameterInteraction [("-wallet", ["w1", "w2"]), ("-zapwallettxes", ["2"])] false).args
      = [("-persistmempool", ["0"]), ("-wallet", ["w1", "w2"]), ("-zapwallettxes", ["2"])] := by
  decide

/-! ## `VerifyWallets`

Filesystem access becomes an oracle (`FSModel`), and the two external wallet
helpers become function parameters: `getPath` models
`WalletLocation(file).GetPath()` (resolution of an identifier to its absolute
path, implemented outside this file in walletutil.cpp), and `verify` models
`CWallet::Verify(chain, location, salvage, error, warning)` returning
`(success, error_string, warning_string)`. -/

structure FSModel where
  /-- model of `fs::exists` -/
  fsExists : String → Bool
  /-- model of `fs::is_directory` -/
  isDirectory : String → Bool
  /-- model of `fs::canonical`; `none` models the error_code being set. -/
  canonical : String → Option String

/-- Model of `fs::path::is_absolute`, POSIX reading: a path is absolute when it has a
root directory, i.e. starts with the separator. -/
def isAbsolutePath (p : String) : Bool :=
  match p.data with
  | '/' :: _ => true
  | _ => false

/-- The fatal errors `VerifyWallets` raises via `InitError` before or instead
of per-wallet verification. -/
inductive WErr where
  /-- message "Specified -walletdir \"%s\" does not exist" -/
  | walletDirNotExist (dir : String)
  /-- message "Specified -walletdir \"%s\" is not a directory" -/
  | walletDirNotDirectory (dir : String)
  /-- message "Specified -walletdir \"%s\" is a relative path" -/
  | walletDirRelative (dir : String)
  /-- message "Error loading wallet %s. Duplicate -wallet filename specified." -/
  | duplicateWallet (file : String)
deriving DecidableEq, Repr

structure VWResult where
  ok : Bool
  fatal : Option WErr
  /-- non-empty `error_string`s passed to `InitError` inside the loop -/
  reportedErrors : List String
  /-- non-empty `warning_string`s passed to `InitWarning` inside the loop -/
  reportedWarnings : List String
  /-- each `CWallet::Verify` invocation: (wallet file, salvage flag) -/
  verifyCalls : List (String × Bool)
  args : Args
deriving DecidableEq, Repr

/-- The per-wallet loop of `VerifyWallets`: duplicate detection on resolved
paths (`wallet_paths` is the `seen` accumulator), then verification of the
wallet, reporting its error/warning strings, aborting when verification
fails. -/
def verifyLoop (getPath : String → String) (verify : String → Bool → Bool × String × String)
    (salvage : Bool) (seen : List String) : List String → VWResult
  | [] => { ok := true, fatal := none, reportedErrors := [], reportedWarnings := [],
            verifyCalls := [], args := [] }
  | f :: fs =>
    let p := getPath f
    if p ∈ seen then
      { ok := false, fatal := some (.duplicateWallet f), reportedErrors := [],
        reportedWarnings := [], verifyCalls := [], args := [] }
    else
      let v := verify f salvage
      let errHere := if v.2.1 ≠ "" then [v.2.1] else []
      let warnHere := if v.2.2 ≠ "" then [v.2.2] else []
      if v.1 then
        let r := verifyLoop getPath verify salvage (p :: seen) fs
        { r with reportedErrors := errHere ++ r.reportedErrors,
                 reportedWarnings := warnHere ++ r.reportedWarnings,
                 verifyCalls := (f, salvage) :: r.verifyCalls }
      else
        { ok := false, fatal := none, reportedErrors := errHere,
          reportedWarnings := warnHere, verifyCalls := [(f, salvage)], args := [] }

/-- Model of `VerifyWallets`: optional `-walletdir` validation and canonical rewrite,
then the duplicate-detecting verification loop over `wallet_files`. -/
def verifyWallets (fs : FSModel) (getPath : String → String)
    (verify : String → Bool → Bool × String × String)
    (a : Args) (wallet_files : List String) : VWResult :=
  if isArgSet a "-walletdir" then
    let wallet_dir := getArgDef a "-walletdir" ""
    let canon := fs.canonical wallet_dir
    if canon.isNone || !fs.fsExists wallet_dir then
      { ok := false, fatal := some (.walletDirNotExist wallet_dir), reportedErrors := [],
        reportedWarnings := [], verifyCalls := [], args := a }
    else if !fs.isDirectory wallet_dir then
      { ok := false, fatal := some (.walletDirNotDirectory wallet_dir), reportedErrors := [],
        reportedWarnings := [], verifyCalls := [], args := a }
    else if !isAbsolutePath wallet_dir then
      { ok := false, fatal := some (.walletDirRelative wallet_dir), reportedErrors := [],
        reportedWarnings := [], verifyCalls := [], args := a }
    else
      let a1 := forceSetArg a "-walletdir" (canon.getD "")
      let salvage := getBoolArg a1 "-salvagewallet" false && decide (wallet_files.length ≤ 1)
      { verifyLoop getPath verify salvage [] wallet_files with args := a1 }
  else
    let salvage := getBoolArg a "-salvagewallet" false && decide (wallet_files.length ≤ 1)
    { verifyLoop getPath verify salvage [] wallet_files with args := a }

example :
    (verifyWallets ⟨fun _ => false, fun _ => false, fun _ => none⟩ (fun f => f)
      (fun f _ => if f = "a" then (false, "corrupt a", "") else (false, "corrupt b", ""))
      [] ["a", "b"]).verifyCalls = [("a", false)] := by decide

/-! ## `WalletInit::Construct` (first-run legacy wallet migration)

`GetDataDir()`, `GetWalletDir()` and `GetDefaultDataDirLegacy()` are external
(util/system.cpp, walletutil.cpp), so they are environment fields; file
existence (`fs::exists` on peers.dat, `WalletLocation::Exists` on the wallet
files) is the same filesystem oracle. -/

/-- Path concatenation, `dir / file` on fs::path. -/
def joinPath (dir file : String) : String :=
  dir ++ "/" ++ file

inductive CopyOutcome where
  | copied
  | failedExists
deriving DecidableEq, Repr

/-- Model of `fs::copy_file` with `fs::copy_option::fail_if_exists`: the copy fails
(rather than overwriting) when the destination already exists. -/
def copyFileFailIfExists (fsE : String → Bool) (_src dst : String) : CopyOutcome :=
  if fsE dst then .failedExists else .copied

structure ConstructEnv where
  /-- shared filesystem-existence oracle (`fs::exists` / `WalletLocation::Exists`) -/
  fsExists : String → Bool
  /-- model of `GetDataDir()` -/
  dataDir : String
  /-- model of `GetWalletDir()` -/
  walletDir : String
  /-- model of `GetDefaultDataDirLegacy()` -/
  legacyDataDir : String

structure ConstructResult where
  /-- the `fs::copy_file` call, if performed: (source, destination, outcome) -/
  copyCall : Option (String × String × CopyOutcome)
  /-- the wallet-file list handed to `interfaces::MakeWalletClient`; `none`
  when the wallet is disabled and no client is created -/
  walletClientArgs : Option (List String)
  args : Args
deriving DecidableEq, Repr

/-- Model of `WalletInit::Construct`. -/
def construct (env : ConstructEnv) (a : Args) : ConstructResult :=
  if getBoolArg a "-disablewallet" DEFAULT_DISABLE_WALLET then
    { copyCall := none, walletClientArgs := none, args := a }
  else
    let peersDat := joinPath env.dataDir "peers.dat"
    let firstTimeLoad := !env.fsExists peersDat
    let defaultWalletFile1 := joinPath env.dataDir "wallet.dat"
    let defaultWalletFile2 := joinPath env.walletDir "wallet.dat"
    let legacyWalletFile := joinPath env.legacyDataDir "wallet.dat"
    let copyCall :=
      if firstTimeLoad && !env.fsExists defaultWalletFile1
          && !env.fsExists defaultWalletFile2 && env.fsExists legacyWalletFile then
        some (legacyWalletFile, defaultWalletFile2,
          copyFileFailIfExists env.fsExists legacyWalletFile defaultWalletFile2)
      else none
    let a1 := (softSetArg a "-wallet" "").2
    { copyCall := copyCall, walletClientArgs := some (getArgsList a1 "-wallet"), args := a1 }

/-! ## `LoadWallets`

`CWallet::CreateWalletFromFile` becomes the oracle `create`; a wallet handle
is an opaque natural number; `AddWallet` appends to the registry list. The
result records the event trace (construction attempts and registry adds) so
the fail-fast and add-immediately behavior is visible. -/

inductive LoadEvent where
  /-- a `CWallet::CreateWalletFromFile` invocation on this wallet file -/
  | createCall (file : String)
  /-- an `AddWallet` invocation with this handle -/
  | added (w : Nat)
deriving DecidableEq, Repr

structure LoadResult where
  ok : Bool
  registry : List Nat
  events : List LoadEvent
deriving DecidableEq, Repr

/-- Model of `LoadWallets`: construct each wallet in order, adding each handle to the
registry immediately; a construction failure returns false at once. -/
def loadWallets (create : String → Option Nat) (registry : List Nat) :
    List String → LoadResult
  | [] => { ok := true, registry := registry, events := [] }
  | f :: fs =>
    match create f with
    | none => { ok := false, registry := registry, events := [.createCall f] }
    | some w =>
      let r := loadWallets create (registry ++ [w]) fs
      { r with events := .createCall f :: .added w :: r.events }

/-! ## `UnloadWallets`

The registry and the set of released wallets form the teardown state;
`UnloadWallets` works on a snapshot (`GetWallets()` copies the registry),
pops its back, removes that handle from the registry (`RemoveWallet`) and
then releases it (`UnloadWallet`).  `unloadLoop` returns the trace of every
intermediate state, including the state between removal and release. -/

structure TeardownState where
  registry : List Nat
  released : List Nat
deriving DecidableEq, Repr

/-- Model of `RemoveWallet`: erase the handle from the registry. -/
def removeWallet (s : TeardownState) (w : Nat) : TeardownState :=
  { s with registry := s.registry.erase w }

/-- Model of `UnloadWallet`: release the handle. -/
def unloadWallet (s : TeardownState) (w : Nat) : TeardownState :=
  { s with released := s.released ++ [w] }

/-- The `while (!wallets.empty())` loop of `UnloadWallets`.  The snapshot
vector is consumed from its back (`wallets.back()` / `pop_back()`), so the
loop recurses structurally over the reversed snapshot: the head of `rev` is
the back of the remaining snapshot.  Every intermediate teardown state is
returned, including the state between `RemoveWallet` and `UnloadWallet`. -/
def unloadLoop (rev : List Nat) (s : TeardownState) : List TeardownState :=
  match rev with
  | [] => [s]
  | w :: rest =>
    let s1 := removeWallet s w
    let s2 := unloadWallet s1 w
    s :: s1 :: unloadLoop rest s2

/-- Model of `UnloadWallets`: drain starting from the snapshot (`GetWallets()`) of the
registry, popping from the back. -/
def unloadWallets (s : TeardownState) : List TeardownState :=
  unloadLoop s.registry.reverse s

example :
    (unloadWallets { registry := [1, 2], released := [] }).getLast?
      = some { registry := [], released := [2, 1] } := by decide

/-! ## Store lemmas -/

theorem lookup_cons_ne (a : Args) (n : String) (vs' : List String) (name : String)
    (h : name ≠ n) : ((n, vs') :: a).lookup name = a.lookup name := by
  have hb : (name == n) = false := beq_eq_false_iff_ne.mpr h
  simp [List.lookup, hb]

theorem lookup_softSetArg_ne (a : Args) (n v name : String) (h : name ≠ n) :
    (softSetArg a n v).2.lookup name = a.lookup name := by
  unfold softSetArg
  split
  · rfl
  · exact lookup_cons_ne a n [v] name h

theorem getBoolArg_softSetArg_ne (a : Args) (n v name : String) (dflt : Bool) (h : name ≠ n) :
    getBoolArg (softSetArg a n v).2 name dflt = getBoolArg a name dflt := by
  unfold getBoolArg
  rw [lookup_softSetArg_ne a n v name h]

theorem getBoolArg_softSetBoolArg_ne (a : Args) (n : String) (b : Bool) (name : String)
    (dflt : Bool) (h : name ≠ n) :
    getBoolArg (softSetBoolArg a n b).2 name dflt = getBoolArg a name dflt :=
  getBoolArg_softSetArg_ne a n _ name dflt h

theorem getIntArg_softSetBoolArg_ne (a : Args) (n : String) (b : Bool) (name : String)
    (dflt : Int) (h : name ≠ n) :
    getIntArg (softSetBoolArg a n b).2 name dflt = getIntArg a name dflt := by
  unfold getIntArg softSetBoolArg
  rw [lookup_softSetArg_ne a n _ name h]

theorem lookup_softSetArg_of_set (a : Args) (n v name : String) (vs : List String)
    (h : a.lookup name = some vs) : (softSetArg a n v).2.lookup name = some vs := by
  unfold softSetArg
  split
  · exact h
  · rename_i hns
    have hne : name ≠ n := by
      intro e
      subst e
      rw [isArgSet, h] at hns
      simp at hns
    rw [lookup_cons_ne a n [v] name hne]
    exact h

theorem getBoolArg_softSetBoolArg_unset (a : Args) (n : String) (b : Bool) (dflt : Bool)
    (h : isArgSet a n = false) :
    getBoolArg (softSetBoolArg a n b).2 n dflt = b := by
  unfold softSetBoolArg softSetArg
  rw [h]
  cases b <;> simp [getBoolArg, List.lookup] <;> decide

theorem isArgSet_softSetBoolArg_ne (a : Args) (n : String) (b : Bool) (name : String)
    (h : name ≠ n) : isArgSet (softSetBoolArg a n b).2 name = isArgSet a name := by
  unfold isArgSet softSetBoolArg
  rw [lookup_softSetArg_ne a n _ name h]

theorem softSetArg_of_set (a : Args) (n v : String) (h : isArgSet a n = true) :
    (softSetArg a n v).2 = a := by
  unfold softSetArg
  rw [h]
  simp

theorem isArgSet_softSetBoolArg_self (a : Args) (n : String) (b : Bool) :
    isArgSet (softSetBoolArg a n b).2 n = true := by
  unfold softSetBoolArg softSetArg
  by_cases h : isArgSet a n = true
  · rw [h]
    exact h
  · rw [Bool.not_eq_true] at h
    rw [h]
    simp [isArgSet, List.lookup]

theorem lookup_softStep_of_set (c : Bool) (a : Args) (n : String) (b : Bool) (name : String)
    (vs : List String) (h : a.lookup name = some vs) :
    (softStep c a n b).lookup name = some vs := by
  unfold softStep softSetBoolArg
  split
  · exact lookup_softSetArg_of_set a n _ name vs h
  · exact h

theorem getBoolArg_softStep_ne (c : Bool) (a : Args) (n : String) (b : Bool) (name : String)
    (dflt : Bool) (h : name ≠ n) :
    getBoolArg (softStep c a n b) name dflt = getBoolArg a name dflt := by
  unfold softStep
  split
  · exact getBoolArg_softSetBoolArg_ne a n b name dflt h
  · rfl

theorem getIntArg_softStep_ne (c : Bool) (a : Args) (n : String) (b : Bool) (name : String)
    (dflt : Int) (h : name ≠ n) :
    getIntArg (softStep c a n b) name dflt = getIntArg a name dflt := by
  unfold softStep
  split
  · exact getIntArg_softSetBoolArg_ne a n b name dflt h
  · rfl

theorem isArgSet_softStep_ne (c : Bool) (a : Args) (n : String) (b : Bool) (name : String)
    (h : name ≠ n) :
    isArgSet (softStep c a n b) name = isArgSet a name := by
  unfold softStep
  split
  · exact isArgSet_softSetBoolArg_ne a n b name h
  · rfl

/-- Reading back an option just (conditionally) soft-set: the soft value shows
through only when the option was unset. -/
theorem getBoolArg_softStep_true_self (a : Args) (n : String) (b : Bool) (dflt : Bool) :
    getBoolArg (softStep true a n b) n dflt
      = if isArgSet a n = true then getBoolArg a n dflt else b := by
  unfold softStep
  rw [if_pos (show (true : Bool) = true from rfl)]
  by_cases h : isArgSet a n = true
  · rw [if_pos h]
    unfold softSetBoolArg
    rw [softSetArg_of_set a n _ h]
  · rw [Bool.not_eq_true] at h
    rw [if_neg (by simp [h])]
    exact getBoolArg_softSetBoolArg_unset a n b dflt h

theorem isArgSet_softStep_true_self (a : Args) (n : String) (b : Bool) :
    isArgSet (softStep true a n b) n = true := by
  unfold softStep
  rw [if_pos rfl]
  exact isArgSet_softSetBoolArg_self a n b

/-- Because `ParameterInteraction` only ever soft-sets options, an option the user
explicitly set keeps its exact values in the resulting store, on every path
(error or success). -/
theorem parameterInteraction_preserves_set_args (a : Args) (fee : Bool) (name : String)
    (vs : List String) (h : a.lookup name = some vs) :
    (parameterInteraction a fee).args.lookup name = some vs := by
  unfold parameterInteraction
  dsimp only
  split_ifs
  all_goals (repeat first | exact h | apply lookup_softStep_of_set)

theorem softStep_false (a : Args) (n : String) (b : Bool) : softStep false a n b = a := by
  unfold softStep
  simp

/-- C3: for every configuration with wallets enabled and more than one wallet
identifier, `ParameterInteraction` rejects `-salvagewallet` and rejects
`-upgradewallet`, each independently, with the "is only allowed with a single
wallet file" error. -/
theorem parameterInteraction_multiwallet_rejects (a : Args) (fee : Bool)
    (hnd : getBoolArg a "-disablewallet" DEFAULT_DISABLE_WALLET = false)
    (hmw : 1 < (getArgsList a "-wallet").length) :
    (getBoolArg a "-salvagewallet" false = true →
      (parameterInteraction a fee).ok = false ∧
      (parameterInteraction a fee).error = some (.singleWalletOnly "-salvagewallet")) ∧
    (getBoolArg a "-upgradewallet" false = true →
      (parameterInteraction a fee).ok = false ∧
      ∃ opt, (parameterInteraction a fee).error = some (.singleWalletOnly opt)) := by
  have hmw' : decide ((getArgsList a "-wallet").length > 1) = true := decide_eq_true hmw
  constructor
  · intro hsal
    simp [parameterInteraction, hnd, hmw', getBoolArg_softStep_ne, hsal]
  · intro hup
    by_cases hsal : getBoolArg a "-salvagewallet" false = true
    · simp [parameterInteraction, hnd, hmw', getBoolArg_softStep_ne, hsal]
    · rw [Bool.not_eq_true] at hsal
      by_cases hzap : getBoolArg a "-zapwallettxes" false = true
      · simp [parameterInteraction, hnd, hmw', getBoolArg_softStep_ne, hsal, hzap]
      · rw [Bool.not_eq_true] at hzap
        simp [parameterInteraction, hnd, hmw', getBoolArg_softStep_ne, softStep_false,
          hsal, hzap, hup]

/-- C3 witness at a concrete two-wallet configuration with both flags set. -/
theorem parameterInteraction_multiwallet_rejects_witness :
    (parameterInteraction [("-wallet", ["w1", "w2"]), ("-salvagewallet", ["1"]),
        ("-upgradewallet", ["1"])] false).ok = false ∧
    (parameterInteraction [("-wallet", ["w1", "w2"]), ("-salvagewallet", ["1"]),
        ("-upgradewallet", ["1"])] false).error
      = some (.singleWalletOnly "-salvagewallet") := by
  exact (parameterInteraction_multiwallet_rejects
      [("-wallet", ["w1", "w2"]), ("-salvagewallet", ["1"]), ("-upgradewallet", ["1"])]
      false (by decide) (by decide)).1 (by decide)

/-- C4: with wallets enabled and zap-transactions requested (`-zapwallettxes`
mode 1 or 2 both make the boolean read true), more than one wallet identifier
is a fatal multi-wallet error; with exactly one identifier, `-rescan` is
soft-set to true and `-persistmempool` soft-set to false (only when the user
did not set them; user-set options keep their values), and the call succeeds
absent the other failing rules (`-sysperms`, pruning). -/
theorem parameterInteraction_zap (a : Args) (fee : Bool)
    (hnd : getBoolArg a "-disablewallet" DEFAULT_DISABLE_WALLET = false)
    (hzap : getBoolArg a "-zapwallettxes" false = true) :
    (1 < (getArgsList a "-wallet").length →
      (parameterInteraction a fee).ok = false ∧
      ∃ opt, (parameterInteraction a fee).error = some (.singleWalletOnly opt)) ∧
    ((getArgsList a "-wallet").length = 1 →
      (isArgSet a "-rescan" = false →
        getBoolArg (parameterInteraction a fee).args "-rescan" false = true) ∧
      (isArgSet a "-persistmempool" = false →
        getBoolArg (parameterInteraction a fee).args "-persistmempool" true = false) ∧
      (∀ name vs, a.lookup name = some vs →
        (parameterInteraction a fee).args.lookup name = some vs) ∧
      (getBoolArg a "-sysperms" false = false → getIntArg a "-prune" 0 = 0 →
        (parameterInteraction a fee).ok = true)) := by
  constructor
  · intro hmw
    have hmw' : decide ((getArgsList a "-wallet").length > 1) = true := decide_eq_true hmw
    by_cases hsal : getBoolArg a "-salvagewallet" false = true
    · simp [parameterInteraction, hnd, hmw', getBoolArg_softStep_ne, hsal]
    · rw [Bool.not_eq_true] at hsal
      simp [parameterInteraction, hnd, hmw', getBoolArg_softStep_ne, hsal, hzap]
  · intro hlen
    have hmw' : decide ((getArgsList a "-wallet").length > 1) = false := by
      rw [hlen]
      decide
    refine ⟨?_, ?_, ?_, ?_⟩
    · intro hres
      by_cases hsal : getBoolArg a "-salvagewallet" false = true
      · simp [parameterInteraction, hnd, hmw', getBoolArg_softStep_ne, hsal, hzap]
        split_ifs <;>
          simp [getBoolArg_softStep_true_self, isArgSet_softStep_ne,
            isArgSet_softStep_true_self, getBoolArg_softStep_ne, hres]
      · rw [Bool.not_eq_true] at hsal
        simp [parameterInteraction, hnd, hmw', getBoolArg_softStep_ne, softStep_false,
          hsal, hzap]
        split_ifs <;>
          simp [getBoolArg_softStep_true_self, isArgSet_softStep_ne,
            isArgSet_softStep_true_self, getBoolArg_softStep_ne, softStep_false, hres]
    · intro hper
      by_cases hsal : getBoolArg a "-salvagewallet" false = true
      · simp [parameterInteraction, hnd, hmw', getBoolArg_softStep_ne, hsal, hzap]
        split_ifs <;>
          simp [getBoolArg_softStep_true_self, isArgSet_softStep_ne,
            isArgSet_softStep_true_self, getBoolArg_softStep_ne, hper]
      · rw [Bool.not_eq_true] at hsal
        simp [parameterInteraction, hnd, hmw', getBoolArg_softStep_ne, softStep_false,
          hsal, hzap]
        split_ifs <;>
          simp [getBoolArg_softStep_true_self, isArgSet_softStep_ne,
            isArgSet_softStep_true_self, getBoolArg_softStep_ne, softStep_false, hper]
    · exact fun name vs h => parameterInteraction_preserves_set_args a fee name vs h
    · intro hsys hpr
      by_cases hsal : getBoolArg a "-salvagewallet" false = true
      · simp [parameterInteraction, hnd, hmw', getBoolArg_softStep_ne, getIntArg_softStep_ne,
          hsal, hzap, hsys, hpr]
      · rw [Bool.not_eq_true] at hsal
        simp [parameterInteraction, hnd, hmw', getBoolArg_softStep_ne, getIntArg_softStep_ne,
          softStep_false, hsal, hzap, hsys, hpr]

/-- C4 witness: a single-wallet configuration with zap mode 2; rescan ends up
true, mempool persistence false, and the call succeeds. -/
theorem parameterInteraction_zap_witness :
    getBoolArg (parameterInteraction [("-wallet", ["w"]), ("-zapwallettxes", ["2"])]
        false).args "-rescan" false = true ∧
    getBoolArg (parameterInteraction [("-wallet", ["w"]), ("-zapwallettxes", ["2"])]
        false).args "-persistmempool" true = false ∧
    (parameterInteraction [("-wallet", ["w"]), ("-zapwallettxes", ["2"])] false).ok = true := by
  have h := (parameterInteraction_zap [("-wallet", ["w"]), ("-zapwallettxes", ["2"])] false
    (by decide) (by decide)).2 (by decide)
  exact ⟨h.1 (by decide), h.2.1 (by decide), h.2.2.2 (by decide) (by decide)⟩

/-- C5 counterexample: with `-blocksonly` set, two wallet identifiers and
`-salvagewallet` set, `ParameterInteraction` returns a fatal error, yet it has
already soft-set `-walletbroadcast`, so the configuration store differs from
the input when the error is returned. -/
theorem parameterInteraction_error_mutates_store :
    (parameterInteraction [("-wallet", ["w1", "w2"]), ("-blocksonly", ["1"]),
        ("-salvagewallet", ["1"])] false).ok = false ∧
    (parameterInteraction [("-wallet", ["w1", "w2"]), ("-blocksonly", ["1"]),
        ("-salvagewallet", ["1"])] false).args
      ≠ [("-wallet", ["w1", "w2"]), ("-blocksonly", ["1"]), ("-salvagewallet", ["1"])] := by
  decide

/-- C5 (amended): validation may soft-set options the user left
unset before a later rule returns a fatal error, but it never sets or modifies
an option the user explicitly set — on every path, error or success, each
explicitly set option keeps its exact values. -/
theorem parameterInteraction_keeps_user_options (a : Args) (fee : Bool) (name : String)
    (vs : List String) (h : a.lookup name = some vs) :
    (parameterInteraction a fee).args.lookup name = some vs :=
  parameterInteraction_preserves_set_args a fee name vs h

/-- C5 witness: an explicitly set `-rescan` value survives a failing
validation pass untouched. -/
theorem parameterInteraction_keeps_user_options_witness :
    (parameterInteraction [("-rescan", ["0"]), ("-wallet", ["w1", "w2"]),
        ("-zapwallettxes", ["1"])] false).args.lookup "-rescan" = some ["0"] :=
  parameterInteraction_keeps_user_options
    [("-rescan", ["0"]), ("-wallet", ["w1", "w2"]), ("-zapwallettxes", ["1"])]
    false "-rescan" ["0"] (by decide)

/-- C1: `LoadWallets` is an all-or-nothing fail-fast batch.  If every wallet
file in `pre` constructs successfully and construction of `fk` fails, the call
returns failure immediately: the files after `fk` are never attempted, the
registry holds exactly the initial registry followed by the handles of `pre`
(each added right after its construction, as the event trace shows), and the
trace ends with the failing construction attempt. -/
theorem loadWallets_failfast (create : String → Option Nat) (reg0 : List Nat)
    (pre : List String) (fk : String) (post : List String)
    (hpre : ∀ f ∈ pre, (create f).isSome) (hfail : create fk = none) :
    (loadWallets create reg0 (pre ++ fk :: post)).ok = false ∧
    (loadWallets create reg0 (pre ++ fk :: post)).registry
      = reg0 ++ pre.filterMap create ∧
    (loadWallets create reg0 (pre ++ fk :: post)).events
      = pre.flatMap (fun f => LoadEvent.createCall f :: ((create f).toList.map .added))
        ++ [LoadEvent.createCall fk] := by
  induction pre generalizing reg0 with
  | nil =>
    simp [loadWallets, hfail]
  | cons f fs ih =>
    obtain ⟨w, hw⟩ := Option.isSome_iff_exists.mp (hpre f (by simp))
    have ih' := ih (reg0 ++ [w]) (fun g hg => hpre g (by simp [hg]))
    rw [List.cons_append]
    simp only [loadWallets, hw, List.append_eq]
    refine ⟨ih'.1, ?_, ?_⟩
    · rw [ih'.2.1]
      simp [List.filterMap_cons, hw, List.append_assoc]
    · rw [ih'.2.2]
      simp [hw]

/-- C1 witness: three identifiers where the second fails to construct; the
registry ends with exactly the first handle, the third is never attempted. -/
theorem loadWallets_failfast_witness :
    (loadWallets (fun f => ([("w1", 1), ("w3", 3)] : List (String × Nat)).lookup f)
      [] ["w1", "w2", "w3"]).ok = false ∧
    (loadWallets (fun f => ([("w1", 1), ("w3", 3)] : List (String × Nat)).lookup f)
      [] ["w1", "w2", "w3"]).registry = [1] ∧
    (loadWallets (fun f => ([("w1", 1), ("w3", 3)] : List (String × Nat)).lookup f)
      [] ["w1", "w2", "w3"]).events
      = [.createCall "w1", .added 1, .createCall "w2"] := by
  have h := loadWallets_failfast
    (fun f => ([("w1", 1), ("w3", 3)] : List (String × Nat)).lookup f)
    [] ["w1"] "w2" ["w3"] (by decide) (by decide)
  exact ⟨h.1, h.2.1.trans (by decide), h.2.2.trans (by decide)⟩

theorem unloadLoop_ne_nil (rev : List Nat) (s : TeardownState) : unloadLoop rev s ≠ [] := by
  cases rev <;> simp [unloadLoop]

/-- Invariant of the teardown loop: when the remaining snapshot matches the
registry, the handles are distinct and nothing released is still pending, the
loop ends with an empty registry having released everything, and no
intermediate state has a handle both in the registry and released. -/
theorem unloadLoop_spec (rev : List Nat) : ∀ s : TeardownState,
    s.registry = rev.reverse → rev.Nodup → (∀ x ∈ s.released, x ∉ rev) →
    (unloadLoop rev s).getLast? = some ⟨[], s.released ++ rev⟩ ∧
    ∀ t ∈ unloadLoop rev s, ∀ h, h ∈ t.registry → h ∉ t.released := by
  induction rev with
  | nil =>
    intro s hreg _ _
    refine ⟨?_, ?_⟩
    · cases s
      simp only at hreg
      simp [unloadLoop, hreg]
    · intro t ht h hht
      simp only [unloadLoop, List.mem_singleton] at ht
      subst ht
      rw [hreg] at hht
      simp at hht
  | cons w rest ih =>
    intro s hreg hnd hdisj
    have hw : w ∉ rest := (List.nodup_cons.mp hnd).1
    have hrest : rest.Nodup := (List.nodup_cons.mp hnd).2
    have herase : s.registry.erase w = rest.reverse := by
      rw [hreg, List.reverse_cons, List.erase_append_right _ (by simpa using hw)]
      simp
    have ih' := ih ⟨s.registry.erase w, s.released ++ [w]⟩
      (by simpa using herase) hrest
      (by
        intro x hx
        simp only [List.mem_append, List.mem_singleton] at hx
        rcases hx with hx | hx
        · exact fun hr => hdisj x hx (by simp [hr])
        · subst hx
          exact hw)
    have hexp : unloadLoop (w :: rest) s
        = s :: { s with registry := s.registry.erase w }
          :: unloadLoop rest ⟨s.registry.erase w, s.released ++ [w]⟩ := by
      simp [unloadLoop, removeWallet, unloadWallet]
    refine ⟨?_, ?_⟩
    · rw [hexp]
      rw [show (s :: { s with registry := s.registry.erase w }
            :: unloadLoop rest ⟨s.registry.erase w, s.released ++ [w]⟩)
          = [s, { s with registry := s.registry.erase w }]
            ++ unloadLoop rest ⟨s.registry.erase w, s.released ++ [w]⟩ from rfl]
      rw [List.getLast?_append, ih'.1]
      simp
    · rw [hexp]
      intro t ht h hht
      simp only [List.mem_cons] at ht
      rcases ht with ht | ht | ht
      · subst ht
        intro hrel
        exact hdisj h hrel (List.mem_reverse.mp (hreg ▸ hht))
      · subst ht
        intro hrel
        replace hht : h ∈ s.registry.erase w := hht
        replace hrel : h ∈ s.released := hrel
        rw [herase] at hht
        exact hdisj h hrel (List.mem_cons_of_mem w (List.mem_reverse.mp hht))
      · exact ih'.2 t ht h hht

/-- C6: `UnloadWallets` drains the registry to empty — the final teardown
state has an empty registry and every handle released (in back-to-front
order) — and each handle is removed from the registry strictly before its
release, so no intermediate state of the teardown has a handle both present
in the registry and released. -/
theorem unloadWallets_drains (s : TeardownState) (hrel : s.released = [])
    (hnd : s.registry.Nodup) :
    (unloadWallets s).getLast? = some ⟨[], s.registry.reverse⟩ ∧
    ∀ t ∈ unloadWallets s, ∀ h, h ∈ t.registry → h ∉ t.released := by
  have h := unloadLoop_spec s.registry.reverse s (by simp) (by simpa using hnd)
    (by simp [hrel])
  unfold unloadWallets
  refine ⟨?_, h.2⟩
  rw [h.1, hrel]
  simp

/-- C6 witness: a three-handle registry drains to empty, releasing back to
front. -/
theorem unloadWallets_drains_witness :
    (unloadWallets ⟨[1, 2, 3], []⟩).getLast? = some ⟨[], [3, 2, 1]⟩ := by
  have h := (unloadWallets_drains ⟨[1, 2, 3], []⟩ rfl (by decide)).1
  simpa using h

theorem getBoolArg_forceSetArg_ne (a : Args) (n v name : String) (dflt : Bool)
    (h : name ≠ n) :
    getBoolArg (forceSetArg a n v) name dflt = getBoolArg a name dflt := by
  unfold getBoolArg forceSetArg
  rw [lookup_cons_ne a n [v] name h]

/-- Every `CWallet::Verify` call made by the verification loop carries the
salvage flag the loop was given. -/
theorem verifyLoop_calls_flag (getPath : String → String)
    (verify : String → Bool → Bool × String × String) (s : Bool) :
    ∀ (files : List String) (seen : List String) (c : String × Bool),
      c ∈ (verifyLoop getPath verify s seen files).verifyCalls → c.2 = s := by
  intro files
  induction files with
  | nil =>
    intro seen c hc
    simp [verifyLoop] at hc
  | cons f fs ih =>
    intro seen c hc
    by_cases hmem : getPath f ∈ seen
    · simp [verifyLoop, hmem] at hc
    · by_cases hv : (verify f s).1 = true
      · simp only [verifyLoop, if_neg hmem, hv, if_true, ite_true, List.mem_cons] at hc
        rcases hc with hc | hc
        · rw [hc]
        · exact ih (getPath f :: seen) c hc
      · rw [Bool.not_eq_true] at hv
        simp [verifyLoop, hmem, hv] at hc
        rw [hc]

/-- C9: every invocation of the wallet verification entry point is made with
the salvage flag equal to "salvage requested AND exactly one wallet
configured"; in particular with zero or two and more configured wallets every
performed call carries salvage = false. -/
theorem verifyWallets_salvage_flag (fs : FSModel) (getPath : String → String)
    (verify : String → Bool → Bool × String × String) (a : Args)
    (wallet_files : List String) (c : String × Bool)
    (hc : c ∈ (verifyWallets fs getPath verify a wallet_files).verifyCalls) :
    c.2 = (getBoolArg a "-salvagewallet" false && decide (wallet_files.length = 1)) := by
  rcases hfiles : wallet_files with _ | ⟨f, fsr⟩
  · subst hfiles
    unfold verifyWallets at hc
    dsimp only at hc
    split_ifs at hc <;> simp [verifyLoop] at hc
  · subst hfiles
    have hdec : decide ((f :: fsr).length ≤ 1) = decide ((f :: fsr).length = 1) := by
      rw [decide_eq_decide]
      simp
    unfold verifyWallets at hc
    dsimp only at hc
    split_ifs at hc with h1 h2 h3 h4
    · simp at hc
    · simp at hc
    · simp at hc
    · have := verifyLoop_calls_flag getPath verify _ (f :: fsr) [] c hc
      rw [this, getBoolArg_forceSetArg_ne a "-walletdir" _ "-salvagewallet" false (by decide),
        hdec]
    · have := verifyLoop_calls_flag getPath verify _ (f :: fsr) [] c hc
      rw [this, hdec]

/-- C9 witness: with `-salvagewallet` set and one configured wallet, the one
verification call carries salvage = true. -/
theorem verifyWallets_salvage_flag_witness :
    ("w", true) ∈ (verifyWallets ⟨fun _ => false, fun _ => false, fun _ => none⟩
      (fun f => f) (fun _ _ => (true, "", "")) [("-salvagewallet", ["1"])]
      ["w"]).verifyCalls ∧
    ("w", true).2 = (getBoolArg [("-salvagewallet", ["1"])] "-salvagewallet" false
      && decide ((["w"] : List String).length = 1)) := by
  refine ⟨by decide, ?_⟩
  exact verifyWallets_salvage_flag ⟨fun _ => false, fun _ => false, fun _ => none⟩
    (fun f => f) (fun _ _ => (true, "", "")) [("-salvagewallet", ["1"])] ["w"]
    ("w", true) (by decide)

theorem getArgDef_forceSetArg_self (a : Args) (n v d : String) :
    getArgDef (forceSetArg a n v) n d = v := by
  unfold getArgDef forceSetArg
  simp [List.lookup]

/-- C8: with `-walletdir` explicitly configured, `VerifyWallets` checks that
it exists (canonicalization error included), is a directory, and is absolute —
three distinct fatal errors, each raised before any per-wallet verification
call — and when all three checks pass it force-rewrites the configured value
to the canonical form. -/
theorem verifyWallets_walletdir_checks (fs : FSModel) (getPath : String → String)
    (verify : String → Bool → Bool × String × String) (a : Args)
    (wallet_files : List String)
    (hwd : isArgSet a "-walletdir" = true) :
    ((fs.canonical (getArgDef a "-walletdir" "")).isNone = true
        ∨ fs.fsExists (getArgDef a "-walletdir" "") = false →
      (verifyWallets fs getPath verify a wallet_files).fatal
          = some (.walletDirNotExist (getArgDef a "-walletdir" "")) ∧
      (verifyWallets fs getPath verify a wallet_files).ok = false ∧
      (verifyWallets fs getPath verify a wallet_files).verifyCalls = []) ∧
    ((fs.canonical (getArgDef a "-walletdir" "")).isSome = true →
      fs.fsExists (getArgDef a "-walletdir" "") = true →
      fs.isDirectory (getArgDef a "-walletdir" "") = false →
      (verifyWallets fs getPath verify a wallet_files).fatal
          = some (.walletDirNotDirectory (getArgDef a "-walletdir" "")) ∧
      (verifyWallets fs getPath verify a wallet_files).ok = false ∧
      (verifyWallets fs getPath verify a wallet_files).verifyCalls = []) ∧
    ((fs.canonical (getArgDef a "-walletdir" "")).isSome = true →
      fs.fsExists (getArgDef a "-walletdir" "") = true →
      fs.isDirectory (getArgDef a "-walletdir" "") = true →
      isAbsolutePath (getArgDef a "-walletdir" "") = false →
      (verifyWallets fs getPath verify a wallet_files).fatal
          = some (.walletDirRelative (getArgDef a "-walletdir" "")) ∧
      (verifyWallets fs getPath verify a wallet_files).ok = false ∧
      (verifyWallets fs getPath verify a wallet_files).verifyCalls = []) ∧
    (∀ cwd, fs.canonical (getArgDef a "-walletdir" "") = some cwd →
      fs.fsExists (getArgDef a "-walletdir" "") = true →
      fs.isDirectory (getArgDef a "-walletdir" "") = true →
      isAbsolutePath (getArgDef a "-walletdir" "") = true →
      getArgDef (verifyWallets fs getPath verify a wallet_files).args "-walletdir" ""
          = cwd) ∧
    (WErr.walletDirNotExist (getArgDef a "-walletdir" "")
        ≠ .walletDirNotDirectory (getArgDef a "-walletdir" "") ∧
      WErr.walletDirNotExist (getArgDef a "-walletdir" "")
        ≠ .walletDirRelative (getArgDef a "-walletdir" "") ∧
      WErr.walletDirNotDirectory (getArgDef a "-walletdir" "")
        ≠ .walletDirRelative (getArgDef a "-walletdir" "")) := by
  refine ⟨?_, ?_, ?_, ?_, by simp, by simp, by simp⟩
  · intro h
    rcases h with h | h <;> simp [verifyWallets, hwd, h]
  · intro hc he hd
    obtain ⟨cwd, hcw⟩ := Option.isSome_iff_exists.mp hc
    simp [verifyWallets, hwd, hcw, he, hd]
  · intro hc he hd habs
    obtain ⟨cwd, hcw⟩ := Option.isSome_iff_exists.mp hc
    simp [verifyWallets, hwd, hcw, he, hd, habs]
  · intro cwd hcw he hd habs
    simp [verifyWallets, hwd, hcw, he, hd, habs, getArgDef_forceSetArg_self]

/-- C8 witness: a valid absolute `-walletdir` is rewritten to its canonical
form before the (empty) wallet loop runs. -/
theorem verifyWallets_walletdir_checks_witness :
    getArgDef (verifyWallets ⟨fun _ => true, fun _ => true, fun p => some p⟩
      (fun f => f) (fun _ _ => (true, "", "")) [("-walletdir", ["/w"])] []).args
      "-walletdir" "" = "/w" := by
  exact (verifyWallets_walletdir_checks ⟨fun _ => true, fun _ => true, fun p => some p⟩
    (fun f => f) (fun _ _ => (true, "", "")) [("-walletdir", ["/w"])] []
    (by decide)).2.2.2.1 "/w" rfl rfl rfl (by decide)

/-- When every wallet in the list verifies successfully and no two resolved
paths collide (also not with previously seen paths), the loop visits every
wallet and surfaces exactly the non-empty error and warning strings. -/
theorem verifyLoop_all_success (getPath : String → String)
    (verify : String → Bool → Bool × String × String) (s : Bool) :
    ∀ (files : List String) (seen : List String),
      (∀ f ∈ files, (verify f s).1 = true) →
      (files.map getPath).Nodup →
      (∀ f ∈ files, getPath f ∉ seen) →
      verifyLoop getPath verify s seen files
        = { ok := true, fatal := none,
            reportedErrors :=
              (files.map (fun f => (verify f s).2.1)).filter (fun e => e ≠ ""),
            reportedWarnings :=
              (files.map (fun f => (verify f s).2.2)).filter (fun e => e ≠ ""),
            verifyCalls := files.map (fun f => (f, s)), args := [] } := by
  intro files
  induction files with
  | nil =>
    intro seen _ _ _
    simp [verifyLoop]
  | cons f fs ih =>
    intro seen hok hnd hseen
    rw [List.map_cons, List.nodup_cons] at hnd
    have hmem : getPath f ∉ seen := hseen f (by simp)
    have hv : (verify f s).1 = true := hok f (by simp)
    have ih' := ih (getPath f :: seen)
      (fun g hg => hok g (by simp [hg]))
      hnd.2
      (by
        intro g hg
        simp only [List.mem_cons, not_or]
        exact ⟨fun he => hnd.1 (he ▸ List.mem_map_of_mem getPath hg),
          hseen g (by simp [hg])⟩)
    simp only [verifyLoop, if_neg hmem, hv, ite_true, ih', List.map_cons]
    by_cases h1 : (verify f s).2.1 = "" <;> by_cases h2 : (verify f s).2.2 = "" <;>
      simp [List.filter_cons, h1, h2]

/-- A wallet whose resolved path was already seen makes the loop return the
duplicate error at once: wallets before it (all verifying successfully, with
distinct fresh paths) are processed, the offending wallet is not verified, and
nothing after it is looked at. -/
theorem verifyLoop_duplicate (getPath : String → String)
    (verify : String → Bool → Bool × String × String) (s : Bool) :
    ∀ (pre : List String) (f : String) (post : List String) (seen : List String),
      (∀ g ∈ pre, (verify g s).1 = true) →
      (pre.map getPath).Nodup →
      (∀ g ∈ pre, getPath g ∉ seen) →
      getPath f ∈ seen ++ pre.map getPath →
      (verifyLoop getPath verify s seen (pre ++ f :: post)).fatal
          = some (.duplicateWallet f) ∧
      (verifyLoop getPath verify s seen (pre ++ f :: post)).ok = false ∧
      (verifyLoop getPath verify s seen (pre ++ f :: post)).verifyCalls
          = pre.map (fun g => (g, s)) := by
  intro pre
  induction pre with
  | nil =>
    intro f post seen _ _ _ hdup
    simp only [List.map_nil, List.append_nil] at hdup
    simp [verifyLoop, hdup]
  | cons g gs ih =>
    intro f post seen hok hnd hseen hdup
    rw [List.map_cons, List.nodup_cons] at hnd
    have hmem : getPath g ∉ seen := hseen g (by simp)
    have hv : (verify g s).1 = true := hok g (by simp)
    have ih' := ih f post (getPath g :: seen)
      (fun x hx => hok x (by simp [hx]))
      hnd.2
      (by
        intro x hx
        simp only [List.mem_cons, not_or]
        exact ⟨fun he => hnd.1 (he ▸ List.mem_map_of_mem getPath hx),
          hseen x (by simp [hx])⟩)
      (by
        simp only [List.map_cons, List.mem_append, List.mem_cons] at hdup ⊢
        tauto)
    simp only [List.cons_append, verifyLoop, if_neg hmem, hv, ite_true]
    exact ⟨ih'.1, ih'.2.1, by simp [ih'.2.2]⟩

/-- A failing verification stops the loop right after the failing wallet:
wallets before it are processed and their non-empty error strings reported,
the failing wallet is verified (its error string reported too), and nothing
after it is looked at. -/
theorem verifyLoop_failure (getPath : String → String)
    (verify : String → Bool → Bool × String × String) (s : Bool) :
    ∀ (pre : List String) (f : String) (post : List String) (seen : List String),
      (∀ g ∈ pre, (verify g s).1 = true) →
      (pre.map getPath).Nodup →
      (∀ g ∈ pre, getPath g ∉ seen) →
      getPath f ∉ seen ++ pre.map getPath →
      (verify f s).1 = false →
      (verifyLoop getPath verify s seen (pre ++ f :: post)).ok = false ∧
      (verifyLoop getPath verify s seen (pre ++ f :: post)).fatal = none ∧
      (verifyLoop getPath verify s seen (pre ++ f :: post)).verifyCalls
          = pre.map (fun g => (g, s)) ++ [(f, s)] ∧
      (verifyLoop getPath verify s seen (pre ++ f :: post)).reportedErrors
          = (pre.map (fun g => (verify g s).2.1)).filter (fun e => e ≠ "")
            ++ (if (verify f s).2.1 ≠ "" then [(verify f s).2.1] else []) := by
  intro pre
  induction pre with
  | nil =>
    intro f post seen _ _ _ hfresh hfail
    simp only [List.map_nil, List.append_nil] at hfresh
    simp [verifyLoop, hfresh, hfail]
  | cons g gs ih =>
    intro f post seen hok hnd hseen hfresh hfail
    rw [List.map_cons, List.nodup_cons] at hnd
    have hmem : getPath g ∉ seen := hseen g (by simp)
    have hv : (verify g s).1 = true := hok g (by simp)
    have ih' := ih f post (getPath g :: seen)
      (fun x hx => hok x (by simp [hx]))
      hnd.2
      (by
        intro x hx
        simp only [List.mem_cons, not_or]
        exact ⟨fun he => hnd.1 (he ▸ List.mem_map_of_mem getPath hx),
          hseen x (by simp [hx])⟩)
      (by
        simp only [List.map_cons, List.mem_append, List.mem_cons, not_or] at hfresh ⊢
        tauto)
      hfail
    simp only [List.cons_append, verifyLoop, if_neg hmem, hv, ite_true]
    refine ⟨ih'.1, ih'.2.1, by simp [ih'.2.2.1], ?_⟩
    rw [List.map_cons]
    by_cases h1 : (verify g s).2.1 = "" <;>
      simp [List.filter_cons, h1, ih'.2.2.2]

/-- C2 counterexample: two wallets whose verifications both fail with error
strings.  `VerifyWallets` reports the first error and returns false without
ever verifying the second wallet, so the second error is never surfaced — a
per-wallet verification failure does abort processing of the remaining
wallets. -/
theorem verifyWallets_error_aborts :
    (verifyWallets ⟨fun _ => false, fun _ => false, fun _ => none⟩ (fun f => f)
      (fun f _ => if f = "a" then (false, "corrupt a", "") else (false, "corrupt b", ""))
      [] ["a", "b"]).ok = false ∧
    (verifyWallets ⟨fun _ => false, fun _ => false, fun _ => none⟩ (fun f => f)
      (fun f _ => if f = "a" then (false, "corrupt a", "") else (false, "corrupt b", ""))
      [] ["a", "b"]).reportedErrors = ["corrupt a"] ∧
    (verifyWallets ⟨fun _ => false, fun _ => false, fun _ => none⟩ (fun f => f)
      (fun f _ => if f = "a" then (false, "corrupt a", "") else (false, "corrupt b", ""))
      [] ["a", "b"]).verifyCalls = [("a", false)] ∧
    "corrupt b" ∉ (verifyWallets ⟨fun _ => false, fun _ => false, fun _ => none⟩
      (fun f => f)
      (fun f _ => if f = "a" then (false, "corrupt a", "") else (false, "corrupt b", ""))
      [] ["a", "b"]).reportedErrors := by
  decide

/-- C2 (amended): in the Verify stage (no `-walletdir` override configured
here), per-wallet error/warning strings are surfaced without aborting only as
long as each wallet's verification call itself succeeds: (a) if every
verification succeeds and the resolved paths are distinct, every wallet is
verified and exactly the non-empty error strings are reported; (b) a
duplicate resolved path is an immediate fatal whole-set failure naming the
offending identifier, skipping its verification and everything after it;
(c) a failed verification aborts immediately after reporting that wallet's
error string — later wallets are not processed and their errors not
surfaced. -/
theorem verifyWallets_verify_stage (fs : FSModel) (getPath : String → String)
    (verify : String → Bool → Bool × String × String) (a : Args)
    (files : List String)
    (hwd : isArgSet a "-walletdir" = false) :
    ((∀ f ∈ files,
        (verify f (getBoolArg a "-salvagewallet" false && decide (files.length ≤ 1))).1
          = true) →
      (files.map getPath).Nodup →
      (verifyWallets fs getPath verify a files).ok = true ∧
      (verifyWallets fs getPath verify a files).reportedErrors
        = (files.map (fun f =>
            (verify f (getBoolArg a "-salvagewallet" false
              && decide (files.length ≤ 1))).2.1)).filter (fun e => e ≠ "") ∧
      (verifyWallets fs getPath verify a files).verifyCalls
        = files.map (fun f =>
            (f, getBoolArg a "-salvagewallet" false && decide (files.length ≤ 1)))) ∧
    (∀ pre f post, files = pre ++ f :: post →
      (∀ g ∈ pre,
        (verify g (getBoolArg a "-salvagewallet" false && decide (files.length ≤ 1))).1
          = true) →
      (pre.map getPath).Nodup →
      getPath f ∈ pre.map getPath →
      (verifyWallets fs getPath verify a files).fatal = some (.duplicateWallet f) ∧
      (verifyWallets fs getPath verify a files).ok = false ∧
      (verifyWallets fs getPath verify a files).verifyCalls
        = pre.map (fun g =>
            (g, getBoolArg a "-salvagewallet" false && decide (files.length ≤ 1)))) ∧
    (∀ pre f post, files = pre ++ f :: post →
      (∀ g ∈ pre,
        (verify g (getBoolArg a "-salvagewallet" false && decide (files.length ≤ 1))).1
          = true) →
      (pre.map getPath).Nodup →
      getPath f ∉ pre.map getPath →
      (verify f (getBoolArg a "-salvagewallet" false && decide (files.length ≤ 1))).1
        = false →
      (verifyWallets fs getPath verify a files).ok = false ∧
      (verifyWallets fs getPath verify a files).verifyCalls
        = pre.map (fun g =>
            (g, getBoolArg a "-salvagewallet" false && decide (files.length ≤ 1)))
          ++ [(f, getBoolArg a "-salvagewallet" false && decide (files.length ≤ 1))] ∧
      (verifyWallets fs getPath verify a files).reportedErrors
        = (pre.map (fun g =>
            (verify g (getBoolArg a "-salvagewallet" false
              && decide (files.length ≤ 1))).2.1)).filter (fun e => e ≠ "")
          ++ (if (verify f (getBoolArg a "-salvagewallet" false
                && decide (files.length ≤ 1))).2.1 ≠ ""
              then [(verify f (getBoolArg a "-salvagewallet" false
                && decide (files.length ≤ 1))).2.1] else [])) := by
  have hr : verifyWallets fs getPath verify a files
      = { verifyLoop getPath verify
            (getBoolArg a "-salvagewallet" false && decide (files.length ≤ 1)) [] files
          with args := a } := by
    simp [verifyWallets, hwd]
  refine ⟨?_, ?_, ?_⟩
  · intro hok hnd
    rw [hr]
    rw [verifyLoop_all_success getPath verify _ files [] hok hnd (by simp)]
    exact ⟨rfl, rfl, rfl⟩
  · intro pre f post hsplit hok hnd hdup
    subst hsplit
    rw [hr]
    dsimp only
    have h := verifyLoop_duplicate getPath verify
      (getBoolArg a "-salvagewallet" false && decide ((pre ++ f :: post).length ≤ 1))
      pre f post [] hok hnd (by simp) (by simpa using hdup)
    exact ⟨h.1, h.2.1, h.2.2⟩
  · intro pre f post hsplit hok hnd hfresh hfail
    subst hsplit
    rw [hr]
    dsimp only
    have h := verifyLoop_failure getPath verify
      (getBoolArg a "-salvagewallet" false && decide ((pre ++ f :: post).length ≤ 1))
      pre f post [] hok hnd (by simp) (by simpa using hfresh) hfail
    exact ⟨h.1, h.2.2.1, h.2.2.2⟩

/-- C2 witness: two identifiers resolving to the same path; the duplicate is
fatal on the second occurrence. -/
theorem verifyWallets_verify_stage_witness :
    (verifyWallets ⟨fun _ => false, fun _ => false, fun _ => none⟩ (fun _ => "P")
      (fun _ _ => (true, "", "")) [] ["a", "b"]).fatal
      = some (.duplicateWallet "b") := by
  exact ((verifyWallets_verify_stage ⟨fun _ => false, fun _ => false, fun _ => none⟩
    (fun _ => "P") (fun _ _ => (true, "", "")) [] ["a", "b"] (by decide)).2.1
    ["a"] "b" [] rfl (by decide) (by decide) (by decide)).1


/-- C7 counterexample: with `-disablewallet` set, `Construct` returns before
the migration step and performs no copy, even though it is a first run (no
peers.dat), neither new-layout default wallet exists and the legacy wallet
file exists — so the stated "if and only if" fails. -/
theorem construct_no_copy_when_disabled :
    (construct (⟨fun p => p == "legacy/wallet.dat", "data", "data/wallets", "legacy"⟩ :
        ConstructEnv) [("-disablewallet", ["1"])]).copyCall = none ∧
    ConstructEnv.fsExists
      ⟨fun p => p == "legacy/wallet.dat", "data", "data/wallets", "legacy"⟩
      (joinPath "data" "peers.dat") = false ∧
    ConstructEnv.fsExists
      ⟨fun p => p == "legacy/wallet.dat", "data", "data/wallets", "legacy"⟩
      (joinPath "data" "wallet.dat") = false ∧
    ConstructEnv.fsExists
      ⟨fun p => p == "legacy/wallet.dat", "data", "data/wallets", "legacy"⟩
      (joinPath "data/wallets" "wallet.dat") = false ∧
    ConstructEnv.fsExists
      ⟨fun p => p == "legacy/wallet.dat", "data", "data/wallets", "legacy"⟩
      (joinPath "legacy" "wallet.dat") = true := by
  decide

/-- C7 (amended): when the wallet is enabled, `Construct` performs the legacy
migration copy if and only if it is a first run (peers.dat absent), neither
new-layout default wallet file exists, and the legacy wallet file exists; the
copy it then performs targets the wallet-subdirectory default location (and
succeeds, since that destination was just checked absent); and the copy
primitive used fails rather than overwriting whenever its destination already
exists. -/
theorem construct_migration_conditions (env : ConstructEnv) (a : Args)
    (hnd : getBoolArg a "-disablewallet" DEFAULT_DISABLE_WALLET = false) :
    ((construct env a).copyCall.isSome = true
      ↔ (env.fsExists (joinPath env.dataDir "peers.dat") = false ∧
         env.fsExists (joinPath env.dataDir "wallet.dat") = false ∧
         env.fsExists (joinPath env.walletDir "wallet.dat") = false ∧
         env.fsExists (joinPath env.legacyDataDir "wallet.dat") = true)) ∧
    ((construct env a).copyCall.isSome = true →
      (construct env a).copyCall
        = some (joinPath env.legacyDataDir "wallet.dat",
            joinPath env.walletDir "wallet.dat", .copied)) ∧
    (∀ p q, env.fsExists q = true →
      copyFileFailIfExists env.fsExists p q = .failedExists) := by
  refine ⟨?_, ?_, ?_⟩
  · by_cases h1 : env.fsExists (joinPath env.dataDir "peers.dat") = true <;>
    by_cases h2 : env.fsExists (joinPath env.dataDir "wallet.dat") = true <;>
    by_cases h3 : env.fsExists (joinPath env.walletDir "wallet.dat") = true <;>
    by_cases h4 : env.fsExists (joinPath env.legacyDataDir "wallet.dat") = true <;>
      simp [construct, hnd, h1, h2, h3, h4]
  · by_cases h1 : env.fsExists (joinPath env.dataDir "peers.dat") = true <;>
    by_cases h2 : env.fsExists (joinPath env.dataDir "wallet.dat") = true <;>
    by_cases h3 : env.fsExists (joinPath env.walletDir "wallet.dat") = true <;>
    by_cases h4 : env.fsExists (joinPath env.legacyDataDir "wallet.dat") = true <;>
      simp [construct, hnd, copyFileFailIfExists, h1, h2, h3, h4]
  · intro p q h
    simp [copyFileFailIfExists, h]

/-- C7 witness: wallets enabled, first run, only the legacy file present — the
copy is performed into the wallet-subdirectory default location. -/
theorem construct_migration_conditions_witness :
    (construct (⟨fun p => p == "legacy/wallet.dat", "data", "data/wallets", "legacy"⟩ :
        ConstructEnv) []).copyCall
      = some ("legacy/wallet.dat", "data/wallets/wallet.dat", .copied) := by
  have h := (construct_migration_conditions
    ⟨fun p => p == "legacy/wallet.dat", "data", "data/wallets", "legacy"⟩ []
    (by decide)).2.1 (by decide)
  exact h.trans (by decide)

/-- C10 counterexample: a store in which `-wallet` is set with an empty value
vector — the shape a negated option such as `-nowallet` leaves behind in this
`ArgsManager` lineage.  Wallets are enabled, the soft-set is a no-op because
the option counts as set, and the wallet client receives an empty identifier
list, so the claimed "never empty" fails. -/
theorem construct_wallet_args_empty_on_negated :
    getBoolArg [("-wallet", ([] : List String))] "-disablewallet" DEFAULT_DISABLE_WALLET
      = false ∧
    (construct (⟨fun _ => false, "d", "w", "l"⟩ : ConstructEnv)
      [("-wallet", [])]).walletClientArgs = some [] := by
  decide

/-- C10 (amended): when the wallet is enabled, `Construct` soft-sets the
single default identifier (the empty string) exactly when `-wallet` is unset,
and passes an explicitly configured `-wallet` value list through unchanged;
consequently the list handed to `MakeWalletClient` is empty if and only if
the user explicitly set `-wallet` with an empty value vector (as a negated
option such as `-nowallet` does) — with `-wallet` unset, or set to one or
more identifiers, the list is never empty. -/
theorem construct_wallet_args_spec (env : ConstructEnv) (a : Args)
    (hnd : getBoolArg a "-disablewallet" DEFAULT_DISABLE_WALLET = false) :
    ∃ l, (construct env a).walletClientArgs = some l ∧
      (isArgSet a "-wallet" = true → l = getArgsList a "-wallet") ∧
      (isArgSet a "-wallet" = false → l = [""]) ∧
      (l = [] ↔ a.lookup "-wallet" = some []) := by
  by_cases hset : isArgSet a "-wallet" = true
  · obtain ⟨vs, hvs⟩ := Option.isSome_iff_exists.mp hset
    refine ⟨getArgsList a "-wallet", ?_, fun _ => rfl, fun hc => by simp [hc] at hset, ?_⟩
    · simp [construct, hnd, softSetArg_of_set a "-wallet" "" hset]
    · rw [getArgsList, hvs]
      simp
  · rw [Bool.not_eq_true] at hset
    have hlk : a.lookup "-wallet" = none := by
      rw [isArgSet] at hset
      exact Option.not_isSome_iff_eq_none.mp (by simp [hset])
    refine ⟨[""], ?_, fun hc => by simp [hset] at hc, fun _ => rfl, by simp [hlk]⟩
    simp [construct, hnd, softSetArg, hset, getArgsList, List.lookup]

/-- C10 witness: no `-wallet` configured; the client receives the single
default (empty-string) identifier, a non-empty list. -/
theorem construct_wallet_args_spec_witness :
    (construct (⟨fun _ => false, "d", "w", "l"⟩ : ConstructEnv) []).walletClientArgs
      = some [""] := by
  obtain ⟨l, h1, _, h3, _⟩ := construct_wallet_args_spec
    ⟨fun _ => false, "d", "w", "l"⟩ [] (by decide)
  rw [h1, h3 (by decide)]
